import Mathlib

/-!
Verification of the output-parsing and metrics-derivation pipeline of
`visualize_performance.py` (Jacobi benchmark performance visualization).

The Python source is shallowly embedded below:

* the Line Scanner's three regexes (`re.search(r'Matrix size:\s*(\d+)\s*x\s*\d+', ...)`,
  `re.search(r'Time:\s*([\d.]+)\s*ms', ...)`,
  `re.match(r'\s*(\d+)\s+([\d.]+)\s+([\d.]+)\s+([\d.]+)%', ...)` and the
  substring test `'Sequential:' in line`) are modelled as deterministic
  maximal-munch matchers over `List Char`.  This is faithful because at every
  greedy boundary of those patterns the adjacent character classes are
  disjoint (whitespace vs digits vs `.` vs the literal characters `x`, `m`,
  `%`), so Python's backtracking never changes the outcome, and `re.search`
  is modelled by trying every start position left to right.  `\s` and `\d`
  are modelled over their ASCII members.
* Python `float(...)` applied to a token drawn from `[\d.]+` succeeds exactly
  when the token has at most one dot and at least one digit; otherwise it
  raises `ValueError`.  `parse_output` is therefore `Except String Dataset`;
  every raise in the model carries the message "ValueError".
* Python floats are modelled as `ℚ`; the concrete values appearing in the
  claims (10.0, 5.0, 2.0, 100.0, ...) and the divisions among them are exact
  in both models.
* Python dicts are modelled as association lists with insertion order and
  replace-in-place update, matching dict semantics.
-/

/-- ASCII members of Python's `\s` class. -/
def isSpaceC (c : Char) : Bool :=
  c = ' ' || c = '\t' || c = '\n' || c = '\r' || c = '\x0b' || c = '\x0c'

/-- Members of the `[\d.]` class (ASCII digits and the dot). -/
def isTokC (c : Char) : Bool :=
  c.isDigit || c = '.'

/-- Match a literal prefix, returning the remainder of the input on success. -/
def matchLit : List Char → List Char → Option (List Char)
  | [], s => some s
  | _ :: _, [] => none
  | p :: pt, c :: ct => if p = c then matchLit pt ct else none

/-- Try an anchored matcher at every start position, left to right: the
model of `re.search`. -/
def searchAux {α : Type} (f : List Char → Option α) : List Char → Option α
  | [] => f []
  | c :: t =>
    match f (c :: t) with
    | some r => some r
    | none => searchAux f t

/-- Decimal value of a digit string, as `int(...)` computes it. -/
def natOfDigits (ds : List Char) : Nat :=
  ds.foldl (fun a c => 10 * a + (c.toNat - '0'.toNat)) 0

/-- Python `float(tok)` for a token drawn from `[\d.]+`: defined exactly when
the token has at most one dot and at least one digit, and then equal to the
decimal value. `none` models the `ValueError` raise. -/
def floatOfToken (tok : List Char) : Option ℚ :=
  if tok.count '.' ≤ 1 ∧ tok.any Char.isDigit then
    let ip := tok.takeWhile Char.isDigit
    let rest := tok.dropWhile Char.isDigit
    match rest with
    | [] => some (mkRat (natOfDigits ip) 1)
    | _ :: frac => some (mkRat (natOfDigits (ip ++ frac)) (10 ^ frac.length))
  else none

/-- Anchored match of `Matrix size:\s*(\d+)\s*x\s*\d+`, returning group 1. -/
def sizeHeaderAt (s : List Char) : Option Nat :=
  match matchLit ("Matrix size:".toList) s with
  | none => none
  | some r1 =>
    let r2 := r1.dropWhile isSpaceC
    let ds := r2.takeWhile Char.isDigit
    if ds.isEmpty then none else
    let r3 := r2.dropWhile Char.isDigit
    let r4 := r3.dropWhile isSpaceC
    match matchLit ['x'] r4 with
    | none => none
    | some r5 =>
      let r6 := r5.dropWhile isSpaceC
      if (r6.takeWhile Char.isDigit).isEmpty then none
      else some (natOfDigits ds)

/-- `re.search(r'Matrix size:\s*(\d+)\s*x\s*\d+', line)`: group 1 as an int. -/
def sizeHeaderOf (l : String) : Option Nat :=
  searchAux sizeHeaderAt l.toList

/-- Anchored match of `Time:\s*([\d.]+)\s*ms`, returning the group-1 token. -/
def timeTokAt (s : List Char) : Option (List Char) :=
  match matchLit ("Time:".toList) s with
  | none => none
  | some r1 =>
    let r2 := r1.dropWhile isSpaceC
    let tok := r2.takeWhile isTokC
    if tok.isEmpty then none else
    let r3 := (r2.dropWhile isTokC).dropWhile isSpaceC
    match matchLit ("ms".toList) r3 with
    | none => none
    | some _ => some tok

/-- `re.search(r'Time:\s*([\d.]+)\s*ms', line)`: the raw group-1 token. -/
def timeTokenOf (l : String) : Option (List Char) :=
  searchAux timeTokAt l.toList

/-- `'Sequential:' in line`. -/
def hasSeqMarker (l : String) : Bool :=
  (searchAux (matchLit ("Sequential:".toList)) l.toList).isSome

/-- `re.match(r'\s*(\d+)\s+([\d.]+)\s+([\d.]+)\s+([\d.]+)%', line)`:
groups 1 (thread count, as an int) and 2 (the raw time token).  Groups 3 and
4 are matched but never converted by the source, so only their shape is
checked here. -/
def rowOf (l : String) : Option (Nat × List Char) :=
  let s0 := l.toList.dropWhile isSpaceC
  let d1 := s0.takeWhile Char.isDigit
  if d1.isEmpty then none else
  let s1 := s0.dropWhile Char.isDigit
  if (s1.takeWhile isSpaceC).isEmpty then none else
  let s2 := s1.dropWhile isSpaceC
  let t2 := s2.takeWhile isTokC
  if t2.isEmpty then none else
  let s3 := s2.dropWhile isTokC
  if (s3.takeWhile isSpaceC).isEmpty then none else
  let s4 := s3.dropWhile isSpaceC
  let t3 := s4.takeWhile isTokC
  if t3.isEmpty then none else
  let s5 := s4.dropWhile isTokC
  if (s5.takeWhile isSpaceC).isEmpty then none else
  let s6 := s5.dropWhile isSpaceC
  let t4 := s6.takeWhile isTokC
  if t4.isEmpty then none else
  let s7 := s6.dropWhile isTokC
  match s7 with
  | '%' :: _ => some (natOfDigits d1, t2)
  | _ => none

/-- The assembled measurement dataset, as built by `parse_output`:
`data = {'sizes': [...], 'sequential_times': [...], 'parallel_results': {...}}`.
`parallel_results` is the `{threads: {size: time}}` nested dict, modelled as
an insertion-ordered association list. -/
structure Dataset where
  sizes : List Nat
  sequential_times : List ℚ
  parallel_results : List (Nat × List (Nat × ℚ))
deriving DecidableEq, Repr

/-- Equality of parse outcomes is decidable, so concrete runs can be
checked by evaluation. -/
instance {α β : Type} [DecidableEq α] [DecidableEq β] : DecidableEq (Except α β) := fun x y =>
  match x, y with
  | Except.ok a, Except.ok b =>
    if h : a = b then isTrue (by rw [h]) else isFalse (fun hc => h (by injection hc))
  | Except.error a, Except.error b =>
    if h : a = b then isTrue (by rw [h]) else isFalse (fun hc => h (by injection hc))
  | Except.ok _, Except.error _ => isFalse (fun hc => Except.noConfusion hc)
  | Except.error _, Except.ok _ => isFalse (fun hc => Except.noConfusion hc)

/-- Association-list lookup, the model of dict indexing / `.get`. -/
def alookup {α : Type} (k : Nat) : List (Nat × α) → Option α
  | [] => none
  | (k', v) :: t => if k = k' then some v else alookup k t

/-- Dict update `inner[k] = v`: replace in place, or append a new key. -/
def dictInsert (k : Nat) (v : ℚ) : List (Nat × ℚ) → List (Nat × ℚ)
  | [] => [(k, v)]
  | (k', v') :: t => if k = k' then (k, v) :: t else (k', v') :: dictInsert k v t

/-- `data['parallel_results'][threads][size] = t`, creating the inner dict
for a new thread count as the source does. -/
def dict2Insert (th size : Nat) (t : ℚ) :
    List (Nat × List (Nat × ℚ)) → List (Nat × List (Nat × ℚ))
  | [] => [(th, [(size, t)])]
  | (k, inner) :: tl =>
    if th = k then (k, dictInsert size t inner) :: tl
    else (k, inner) :: dict2Insert th size t tl

/-- First line of a window with a `Time: ... ms` match, returning its token:
the inner `for j in range(i, min(i+5, len(lines)))` loop body's search, with
the `break` after the first hit. -/
def firstTimeTok : List String → Option (List Char)
  | [] => none
  | l :: t =>
    match timeTokenOf l with
    | some tok => some tok
    | none => firstTimeTok t

/-- `current_size` update on one line: lines 48-50 of the source. -/
def stepCur (l : String) (cur : Option Nat) : Option Nat :=
  match sizeHeaderOf l with
  | some n => some n
  | none => cur

/-- `sizes` update on one line: append the matched size if it is new
(lines 50-52 of the source). -/
def stepSizes (l : String) (sz : List Nat) : List Nat :=
  match sizeHeaderOf l with
  | some n => if n ∈ sz then sz else sz ++ [n]
  | none => sz

/-- The sequential-time step for one line (lines 55-62 of the source): if the
line contains `Sequential:`, scan the window `lines[i : min(i+5, len(lines))]`
(this line and at most the 4 following ones) for the first `Time: ... ms`
match and convert it with `float`; a failing conversion is the `ValueError`
raise. -/
def seqStep (l : String) (rest : List String) : Except String (Option ℚ) :=
  if hasSeqMarker l then
    match firstTimeTok (List.take 5 (l :: rest)) with
    | some tok =>
      match floatOfToken tok with
      | some t => Except.ok (some t)
      | none => Except.error "ValueError"
    | none => Except.ok none
  else Except.ok none

/-- The parallel-row step for one line (lines 65-72 of the source): if the
row regex matches and `current_size` is defined, convert the time token with
`float` (raising `ValueError` on a malformed token) and store it. -/
def rowStep (l : String) (cur : Option Nat) (pr : List (Nat × List (Nat × ℚ))) :
    Except String (List (Nat × List (Nat × ℚ))) :=
  match rowOf l, cur with
  | some (th, tok), some cs =>
    match floatOfToken tok with
    | some t => Except.ok (dict2Insert th cs t pr)
    | none => Except.error "ValueError"
  | _, _ => Except.ok pr

/-- The `while i < len(lines)` loop of `parse_output` (lines 44-74): each
line is checked, in order, for a size header, a sequential marker (with its
bounded look-ahead window over the remaining lines), and a parallel row. -/
def parseLoop : List String → Option Nat → Dataset → Except String Dataset
  | [], _, d => Except.ok d
  | l :: rest, cur, d =>
    match seqStep l rest with
    | Except.error e => Except.error e
    | Except.ok seqv =>
      match rowStep l (stepCur l cur) d.parallel_results with
      | Except.error e => Except.error e
      | Except.ok pr' =>
        parseLoop rest (stepCur l cur)
          ⟨stepSizes l d.sizes, d.sequential_times ++ seqv.toList, pr'⟩

/-- `parse_output` on an already-split line list, from the initial state
`current_size = None` and the empty dataset. -/
def parseLines (lines : List String) : Except String Dataset :=
  parseLoop lines none ⟨[], [], []⟩

/-- Python `output.split('\n')`. -/
def splitLinesAux : List Char → List Char → List String
  | [], acc => [String.mk acc.reverse]
  | c :: t, acc =>
    if c = '\n' then String.mk acc.reverse :: splitLinesAux t []
    else splitLinesAux t (c :: acc)

/-- Split a raw text block into lines, as `output.split('\n')` does. -/
def splitLines (s : String) : List String :=
  splitLinesAux s.toList []

/-- `parse_output(output)` on the raw text block. -/
def parse_output (output : String) : Except String Dataset :=
  parseLines (splitLines output)

/-- Insert into a sorted list (ascending). -/
def insSorted (n : Nat) : List Nat → List Nat
  | [] => [n]
  | m :: t => if n ≤ m then n :: m :: t else m :: insSorted n t

/-- Insertion sort: the model of `sorted(...)` on the key list. -/
def isort : List Nat → List Nat
  | [] => []
  | n :: t => insSorted n (isort t)

/-- `sorted(parallel_results.keys())`, shared by the charts and the table. -/
def threadCounts (d : Dataset) : List Nat :=
  isort (d.parallel_results.map Prod.fst)

/-- `parallel_results[threads].get(size, default)` flattened over both
levels: used with the summary table's default 0 and the charts' default 1. -/
def alookup2 (pr : List (Nat × List (Nat × ℚ))) (th size : Nat) : Option ℚ :=
  match alookup th pr with
  | some inner => alookup size inner
  | none => none

/-- The summary table's per-cell speedup (lines 227-228 of the source):
`par_time = parallel_results[threads].get(size, 0)` then
`speedup = seq_times[idx] / par_time if par_time > 0 else 0`.  The outer
dict indexing is a `KeyError` (`none`) for an absent thread count, and
`seq_times[idx]` is an `IndexError` (`none`) when it is reached — the
conditional expression only evaluates it when `par_time > 0`. -/
def tableSpeedup (d : Dataset) (idx size threads : Nat) : Option ℚ :=
  match alookup threads d.parallel_results with
  | none => none
  | some inner =>
    let p := (alookup size inner).getD 0
    if 0 < p then
      match d.sequential_times.get? idx with
      | some s => some (s / p)
      | none => none
    else some 0

/-- The chart-side per-point speedup used identically by the speedup-line
series (lines 123-124), the efficiency series (lines 146-147) and the heat
matrix (lines 172-173): `par_time = parallel_results[threads].get(size, 1)`
— note the default is 1, not 0 — then
`speedup = seq_times[idx] / par_time if par_time > 0 else 0`. -/
def chartSpeedup (d : Dataset) (idx size threads : Nat) : Option ℚ :=
  match alookup threads d.parallel_results with
  | none => none
  | some inner =>
    let p := (alookup size inner).getD 1
    if 0 < p then
      match d.sequential_times.get? idx with
      | some s => some (s / p)
      | none => none
    else some 0

/-- The efficiency series' per-point value (line 148 of the source):
`efficiency = (speedup / threads) * 100`. -/
def chartEfficiency (d : Dataset) (idx size threads : Nat) : Option ℚ :=
  (chartSpeedup d idx size threads).map (fun sp => sp / (threads : ℚ) * 100)

/-- One summary-table row's thread-count cells (lines 226-229 of the source):
each cell is the pair `(par_time, speedup)` printed as `"time (speedupx)"`. -/
def summaryRow (d : Dataset) (s : ℚ) (size : Nat) (tcs : List Nat) :
    List (Nat × ℚ × ℚ) :=
  tcs.map (fun t =>
    let p := (alookup2 d.parallel_results t size).getD 0
    (t, p, if 0 < p then s / p else 0))

/-- The summary-table body (lines 224-230 of the source): one row per size,
in order, with `idx` the running index into `seq_times`.  Line 225 formats
`seq_times[idx]` into the row string unconditionally, so a missing sequential
time is an `IndexError` (`none`), not a default. -/
def summaryRowsAux (d : Dataset) (tcs : List Nat) :
    List Nat → Nat → Option (List (Nat × ℚ × List (Nat × ℚ × ℚ)))
  | [], _ => some []
  | size :: rest, idx =>
    match d.sequential_times.get? idx with
    | none => none
    | some s =>
      match summaryRowsAux d tcs rest (idx + 1) with
      | none => none
      | some tail => some ((size, s, summaryRow d s size tcs) :: tail)

/-- The numeric content of `print_summary_table`. -/
def summaryRows (d : Dataset) :
    Option (List (Nat × ℚ × List (Nat × ℚ × ℚ))) :=
  summaryRowsAux d (threadCounts d) d.sizes 0

/-- Outcome of `main` after the benchmark output has been captured
(lines 248-261 of the source): an uncaught parse exception, the
no-sizes diagnostic (which echoes the raw output and returns before the
table and the charts), or a full report built from the parsed dataset. -/
inductive PipeResult where
  | parseError (msg : String)
  | emptyOutput (raw : String)
  | report (d : Dataset)
deriving DecidableEq, Repr

/-- The pipeline from captured text to its outcome: `parse_output`, then the
`if not data['sizes']` guard, then summary table and charts (represented by
the dataset they are derived from). -/
def pipeline (output : String) : PipeResult :=
  match parse_output output with
  | Except.error e => PipeResult.parseError e
  | Except.ok d =>
    if d.sizes = [] then PipeResult.emptyOutput output
    else PipeResult.report d

/-- Per-line head of the sequential-time projection: the value the marker on
this line contributes, if any.  The window `List.take 5 (l :: rest)` is this
line and at most the 4 following ones. -/
def seqHead (l : String) (rest : List String) : List ℚ :=
  if hasSeqMarker l then
    match firstTimeTok (List.take 5 (l :: rest)) with
    | some tok => [(floatOfToken tok).getD 0]
    | none => []
  else []

/-- The sequence of sequential times contributed by each marker line, in
order: a state-free projection of the parse loop. -/
def seqProject : List String → List ℚ
  | [] => []
  | l :: rest => seqHead l rest ++ seqProject rest

/-- Total projection of the parallel-results evolution: the row step with
the (unreachable under a successful parse) conversion failure defaulted. -/
def rowStepTotal (l : String) (cur : Option Nat)
    (pr : List (Nat × List (Nat × ℚ))) : List (Nat × List (Nat × ℚ)) :=
  match rowOf l, cur with
  | some (th, tok), some cs => dict2Insert th cs ((floatOfToken tok).getD 0) pr
  | _, _ => pr

/-- State-passing projection of `parallel_results` through the parse loop. -/
def prRun : List String → Option Nat → List (Nat × List (Nat × ℚ)) →
    List (Nat × List (Nat × ℚ))
  | [], _, pr => pr
  | l :: rest, cur, pr => prRun rest (stepCur l cur) (rowStepTotal l (stepCur l cur) pr)

/-- Projection of the `sizes` evolution through the parse loop. -/
def szRun : List String → List Nat → List Nat
  | [], sz => sz
  | l :: rest, sz => szRun rest (stepSizes l sz)

/-- The size-header values of the lines, in order. -/
def headerVals (ls : List String) : List Nat :=
  ls.filterMap sizeHeaderOf

/-- Keep the first occurrence of each value, in first-seen order: the
`if current_size not in data['sizes']: append` discipline. -/
def dedupFirst : List Nat → List Nat → List Nat
  | [], acc => acc
  | n :: t, acc => dedupFirst t (if n ∈ acc then acc else acc ++ [n])

/-- A successful sequential-time step contributes exactly `seqHead`. -/
theorem seqStep_ok {l : String} {rest : List String} {v : Option ℚ}
    (h : seqStep l rest = Except.ok v) : v.toList = seqHead l rest := by
  by_cases hm : hasSeqMarker l
  · cases hf : firstTimeTok (List.take 5 (l :: rest)) with
    | none =>
      simp at hf
      simp [seqStep, hm, hf] at h
      subst h
      simp [seqHead, hm, hf]
    | some tok =>
      simp at hf
      cases hfl : floatOfToken tok with
      | none => simp [seqStep, hm, hf, hfl] at h
      | some t =>
        simp [seqStep, hm, hf, hfl] at h
        subst h
        simp [seqHead, hm, hf, hfl]
  · simp [seqStep, hm] at h
    subst h
    simp [seqHead, hm]

/-- A successful parallel-row step is the total row projection. -/
theorem rowStep_ok {l : String} {cur : Option Nat}
    {pr pr' : List (Nat × List (Nat × ℚ))}
    (h : rowStep l cur pr = Except.ok pr') : pr' = rowStepTotal l cur pr := by
  cases hr : rowOf l with
  | none =>
    simp [rowStep, hr] at h
    subst h
    simp [rowStepTotal, hr]
  | some p =>
    obtain ⟨th, tok⟩ := p
    cases cur with
    | none =>
      simp [rowStep, hr] at h
      subst h
      simp [rowStepTotal, hr]
    | some cs =>
      cases hfl : floatOfToken tok with
      | none => simp [rowStep, hr, hfl] at h
      | some t =>
        simp [rowStep, hr, hfl] at h
        subst h
        simp [rowStepTotal, hr, hfl]

/-- Projection of a successful parse: the three dataset components are the
three state-free projections of the line list. -/
theorem parseLoop_proj (ls : List String) : ∀ (cur : Option Nat) (d d' : Dataset),
    parseLoop ls cur d = Except.ok d' →
    d'.sizes = szRun ls d.sizes ∧
    d'.sequential_times = d.sequential_times ++ seqProject ls ∧
    d'.parallel_results = prRun ls cur d.parallel_results := by
  induction ls with
  | nil =>
    intro cur d d' h
    simp [parseLoop] at h
    subst h
    simp [szRun, seqProject, prRun]
  | cons l rest ih =>
    intro cur d d' h
    simp only [parseLoop] at h
    cases hs : seqStep l rest with
    | error e => rw [hs] at h; exact absurd h (by simp)
    | ok seqv =>
      rw [hs] at h
      cases hr : rowStep l (stepCur l cur) d.parallel_results with
      | error e => rw [hr] at h; exact absurd h (by simp)
      | ok pr' =>
        rw [hr] at h
        obtain ⟨h1, h2, h3⟩ := ih (stepCur l cur) _ d' h
        refine ⟨?_, ?_, ?_⟩
        · simpa [szRun] using h1
        · rw [h2]
          simp [seqProject, ← seqStep_ok hs, List.append_assoc]
        · rw [h3, rowStep_ok hr]
          simp [prRun]

/-- Projection of a successful `parse_output` run from the initial state. -/
theorem parseLines_proj {ls : List String} {d : Dataset}
    (h : parseLines ls = Except.ok d) :
    d.sizes = szRun ls [] ∧ d.sequential_times = seqProject ls ∧
    d.parallel_results = prRun ls none [] := by
  obtain ⟨h1, h2, h3⟩ := parseLoop_proj ls none ⟨[], [], []⟩ d h
  exact ⟨h1, by simpa using h2, h3⟩

/-- A size-header step preserves the no-duplicates invariant of `sizes`. -/
theorem stepSizes_nodup {l : String} {sz : List Nat} (h : sz.Nodup) :
    (stepSizes l sz).Nodup := by
  unfold stepSizes
  cases sizeHeaderOf l with
  | none => exact h
  | some n =>
    by_cases hn : n ∈ sz
    · simpa [hn] using h
    · simp [hn, List.nodup_append, h, List.disjoint_singleton]

/-- The `sizes` projection preserves the no-duplicates invariant. -/
theorem szRun_nodup (ls : List String) : ∀ sz : List Nat, sz.Nodup → (szRun ls sz).Nodup := by
  induction ls with
  | nil => intro sz h; simpa [szRun] using h
  | cons l rest ih =>
    intro sz h
    simpa [szRun] using ih (stepSizes l sz) (stepSizes_nodup h)

/-- The `sizes` projection is the first-seen deduplication of the header
values of the lines. -/
theorem szRun_eq_dedupFirst (ls : List String) : ∀ acc,
    szRun ls acc = dedupFirst (headerVals ls) acc := by
  induction ls with
  | nil => intro acc; simp [szRun, headerVals, dedupFirst]
  | cons l rest ih =>
    intro acc
    cases h : sizeHeaderOf l with
    | none => simp [szRun, stepSizes, headerVals, h, List.filterMap_cons, ih]
    | some n => simp [szRun, stepSizes, headerVals, h, List.filterMap_cons, dedupFirst, ih]

/-- Lines with no size-header match leave `sizes` untouched. -/
theorem szRun_noheader {ls : List String} (h : ∀ l ∈ ls, sizeHeaderOf l = none) :
    ∀ acc, szRun ls acc = acc := by
  induction ls with
  | nil => intro acc; rfl
  | cons l rest ih =>
    intro acc
    have hl : sizeHeaderOf l = none := h l (by simp)
    have ht : ∀ x ∈ rest, sizeHeaderOf x = none := fun x hx => h x (by simp [hx])
    simp [szRun, stepSizes, hl, ih ht]

/-- A row on a line processed with `current_size` undefined is discarded. -/
theorem rowStepTotal_none (l : String) (pr : List (Nat × List (Nat × ℚ))) :
    rowStepTotal l none pr = pr := by
  cases h : rowOf l with
  | none => simp [rowStepTotal, h]
  | some p =>
    obtain ⟨th, tok⟩ := p
    simp [rowStepTotal, h]

/-- A header-free prefix of the input contributes nothing to
`parallel_results`: the projection over the whole input equals the
projection over the suffix. -/
theorem prRun_append_noheader {ls₁ : List String}
    (h : ∀ l ∈ ls₁, sizeHeaderOf l = none) (ls₂ : List String) :
    ∀ pr, prRun (ls₁ ++ ls₂) none pr = prRun ls₂ none pr := by
  induction ls₁ with
  | nil => intro pr; rfl
  | cons l t ih =>
    intro pr
    have hl : sizeHeaderOf l = none := h l (by simp)
    have ht : ∀ x ∈ t, sizeHeaderOf x = none := fun x hx => h x (by simp [hx])
    have hc : stepCur l none = none := by simp [stepCur, hl]
    simp only [List.cons_append, prRun, hc, rowStepTotal_none]
    exact ih ht pr

/-- The summary-table body fails as soon as the running index reaches past
the end of `sequential_times`. -/
theorem summaryRowsAux_none (d : Dataset) (tcs : List Nat) :
    ∀ (szs : List Nat) (idx : Nat), szs ≠ [] →
      d.sequential_times.length < idx + szs.length →
      summaryRowsAux d tcs szs idx = none := by
  intro szs
  induction szs with
  | nil => intro idx h _; exact absurd rfl h
  | cons size rest ih =>
    intro idx _ hlen
    cases hg : d.sequential_times.get? idx with
    | none =>
      simp only [summaryRowsAux]
      rw [hg]
    | some s =>
      have hidx : idx < d.sequential_times.length := by
        by_contra hge
        rw [List.get?_eq_none.mpr (le_of_not_lt hge)] at hg
        exact Option.noConfusion hg
      have hrest : rest ≠ [] := by
        intro hnil
        subst hnil
        simp at hlen
        omega
      have hlen' : d.sequential_times.length < (idx + 1) + rest.length := by
        simp at hlen
        omega
      simp only [summaryRowsAux]
      rw [hg, ih (idx + 1) hrest hlen']

/-- Lines matching none of the three recognized shapes leave the parse state
untouched and never raise. -/
theorem parseLoop_unclassified (ls : List String) :
    (∀ l ∈ ls, sizeHeaderOf l = none ∧ hasSeqMarker l = false ∧ rowOf l = none) →
    ∀ (cur : Option Nat) (d : Dataset), parseLoop ls cur d = Except.ok d := by
  induction ls with
  | nil => intro _ cur d; rfl
  | cons l rest ih =>
    intro h cur d
    obtain ⟨h1, h2, h3⟩ := h l (by simp)
    have ht : ∀ x ∈ rest, sizeHeaderOf x = none ∧ hasSeqMarker x = false ∧ rowOf x = none :=
      fun x hx => h x (by simp [hx])
    have hseq : seqStep l rest = Except.ok none := by simp [seqStep, h2]
    have hrow : ∀ c : Option Nat, rowStep l c d.parallel_results = Except.ok d.parallel_results :=
      fun c => by simp [rowStep, h3]
    simp only [parseLoop, hseq, hrow, stepSizes, stepCur, h1, Option.toList, List.append_nil]
    exact ih ht cur d

/-- C1 (counterexample): on a dataset assembled by the parser in which the
pair (size 8, threads 2) is absent from the input, the chart-side derived
speedup — used by the speedup series, the efficiency series and the heat
matrix — is the sequential time 20, not 0: the charts default the missing
parallel time to 1, not 0. -/
theorem chart_speedup_absent_pair_cex :
    parseLines ["Matrix size: 4 x 4", "Sequential: Time: 10.0 ms",
        "  2   5.0   2.00   100.0%", "Matrix size: 8 x 8",
        "Sequential: Time: 20.0 ms"] =
      Except.ok ⟨[4, 8], [10, 20], [(2, [(4, 5)])]⟩ ∧
    chartSpeedup ⟨[4, 8], [10, 20], [(2, [(4, 5)])]⟩ 1 8 2 = some 20 ∧
    chartSpeedup ⟨[4, 8], [10, 20], [(2, [(4, 5)])]⟩ 1 8 2 ≠ some 0 := by
  refine ⟨by decide, ?_, ?_⟩
  · norm_num [chartSpeedup, alookup]
  · norm_num [chartSpeedup, alookup]

/-- C1 (amended): for a (size, threadCount) pair absent from the input —
the size missing from a present thread count's inner mapping — the summary
table's derived speedup is 0 (default parallel time 0), but the chart-side
speedup is the sequential time itself and the chart-side efficiency is
sequentialTime / threads * 100 (default parallel time 1).  A thread count
absent from `parallel_results` altogether produces no column or series at
all. -/
theorem absent_pair_speedup_values (d : Dataset) (idx size threads : Nat)
    (s : ℚ) (inner : List (Nat × ℚ))
    (hs : d.sequential_times.get? idx = some s)
    (hth : alookup threads d.parallel_results = some inner)
    (hsz : alookup size inner = none) :
    chartSpeedup d idx size threads = some s ∧
    chartEfficiency d idx size threads = some (s / (threads : ℚ) * 100) ∧
    tableSpeedup d idx size threads = some 0 := by
  rw [List.get?_eq_getElem?] at hs
  refine ⟨?_, ?_, ?_⟩
  · simp [chartSpeedup, hth, hsz, hs]
  · simp [chartEfficiency, chartSpeedup, hth, hsz, hs]
  · simp [tableSpeedup, hth, hsz]

/-- C1 (witness): the amended statement evaluated on the counterexample
dataset. -/
theorem absent_pair_speedup_values_wit :
    chartSpeedup ⟨[4, 8], [10, 20], [(2, [(4, 5)])]⟩ 1 8 2 = some 20 ∧
    chartEfficiency ⟨[4, 8], [10, 20], [(2, [(4, 5)])]⟩ 1 8 2 = some (20 / (2 : ℚ) * 100) ∧
    tableSpeedup ⟨[4, 8], [10, 20], [(2, [(4, 5)])]⟩ 1 8 2 = some 0 :=
  absent_pair_speedup_values ⟨[4, 8], [10, 20], [(2, [(4, 5)])]⟩ 1 8 2 20 [(4, 5)]
    (by decide) (by decide) (by decide)

/-- C2 (counterexample): the dataset parsed from the single line
`Matrix size: 4 x 4` has `sizes = [4]` and empty `sequential_times`, and
the summary-table construction on it fails (IndexError on
`seq_times[0]`) instead of treating the missing sequential time as 0. -/
theorem missing_seq_time_table_cex :
    parseLines ["Matrix size: 4 x 4"] = Except.ok ⟨[4], [], []⟩ ∧
    summaryRows ⟨[4], [], []⟩ = none :=
  ⟨by decide, rfl⟩

/-- C2 (amended): whenever `sequential_times` is shorter than `sizes`, the
summary table fails with an IndexError (modelled as `none`) at the first
size index without a sequential time; it does not substitute 0. -/
theorem summary_table_short_seq_fails (d : Dataset)
    (h : d.sequential_times.length < d.sizes.length) :
    summaryRows d = none := by
  unfold summaryRows
  apply summaryRowsAux_none
  · intro hnil
    rw [hnil] at h
    simp at h
  · simpa using h

/-- C2 (witness): the amended statement evaluated on a dataset with two
sizes and one sequential time. -/
theorem summary_table_short_seq_fails_wit :
    summaryRows ⟨[4, 8], [10], []⟩ = none :=
  summary_table_short_seq_fails ⟨[4, 8], [10], []⟩ (by decide)

/-- C3 (counterexample): a time token on the 5th line after the marker is
outside the scanned window (`range(i, min(i+5, len(lines)))` covers the
marker line and only the 4 following lines), so nothing is appended to
`sequential_times`, while the claim's window of 5 subsequent lines would
capture 7.0. -/
theorem seq_window_fifth_line_cex :
    parseLines ["Sequential:", "a", "b", "c", "d", "Time: 7.0 ms"] =
      Except.ok ⟨[], [], []⟩ := by
  decide

/-- C3 (amended): for every successfully parsed input, `sequential_times`
is exactly the per-marker projection `seqProject`, whose window
`List.take 5` of the suffix starting at the marker is the marker line
itself plus at most the 4 subsequent lines, taking only the first
`Time: ... ms` match inside that window. -/
theorem sequential_times_window_charact (ls : List String) (d : Dataset)
    (h : parseLines ls = Except.ok d) :
    d.sequential_times = seqProject ls :=
  (parseLines_proj h).2.1

/-- C3 (witness): the window characterization evaluated on a concrete
input whose marker finds its time one line later. -/
theorem sequential_times_window_charact_wit :
    (⟨[], [mkRat 5 2], []⟩ : Dataset).sequential_times =
      seqProject ["x", "Sequential:", "Time: 2.5 ms"] :=
  sequential_times_window_charact ["x", "Sequential:", "Time: 2.5 ms"]
    ⟨[], [mkRat 5 2], []⟩ (by decide)

/-- C4 (counterexample): a line matching the ParallelRow shape whose time
field `1.2.3` is not a valid float makes `parse_output` raise ValueError:
parsing does not return a Dataset for arbitrary interleaved content. -/
theorem row_shaped_line_raises_cex :
    parseLines ["Matrix size: 4 x 4", "  2   1.2.3   3.0   4.0%"] =
      Except.error "ValueError" := by
  decide

/-- C4 (amended): every line that matches none of the three recognized
shapes (no size-header match, no `Sequential:` substring, no row match) is
silently ignored and parsing such input returns the empty Dataset without
raising; the no-raise guarantee does not extend to shape-matching lines
whose numeric token is not a valid float. -/
theorem unclassified_lines_ignored (ls : List String)
    (h : ∀ l ∈ ls, sizeHeaderOf l = none ∧ hasSeqMarker l = false ∧ rowOf l = none) :
    parseLines ls = Except.ok ⟨[], [], []⟩ :=
  parseLoop_unclassified ls h none ⟨[], [], []⟩

/-- C4 (witness): a free-form line and a stray `Time:` line outside any
marker window are both ignored. -/
theorem unclassified_lines_ignored_wit :
    parseLines ["hello world", "Time: 5.0 ms"] = Except.ok ⟨[], [], []⟩ :=
  unclassified_lines_ignored ["hello world", "Time: 5.0 ms"] (by decide)

/-- C5 (counterexample): a `Sequential:` line whose window holds a time,
with no size header anywhere, parses to a dataset with
`len(sequential_times) = 1 > 0 = len(sizes)`, violating the claimed
invariant. -/
theorem seq_len_invariant_cex :
    parseLines ["Sequential: Time: 1.0 ms"] = Except.ok ⟨[], [1], []⟩ ∧
    ¬ ((⟨[], [1], []⟩ : Dataset).sequential_times.length ≤
        (⟨[], [1], []⟩ : Dataset).sizes.length) := by
  decide

/-- C5 (amended): `len(sequential_times)` is not bounded by `len(sizes)`;
it equals the number of `Sequential:` marker lines whose look-ahead window
holds a time token (the length of the `seqProject` projection). -/
theorem seq_len_eq_marker_count (ls : List String) (d : Dataset)
    (h : parseLines ls = Except.ok d) :
    d.sequential_times.length = (seqProject ls).length := by
  rw [(parseLines_proj h).2.1]

/-- C5 (witness): the marker-count characterization on a concrete input. -/
theorem seq_len_eq_marker_count_wit :
    (⟨[4], [3], []⟩ : Dataset).sequential_times.length =
      (seqProject ["Matrix size: 4 x 4", "Sequential: Time: 3.0 ms"]).length :=
  seq_len_eq_marker_count ["Matrix size: 4 x 4", "Sequential: Time: 3.0 ms"]
    ⟨[4], [3], []⟩ (by decide)

/-- C6: Scenario A end to end: the three-line input parses to
`sizes=[4]`, `sequential_times=[10.0]`, `parallel_results[2][4]=5.0`, and
the derived metrics are speedup 2.0 and efficiency 100.0 (both on the
table side and on the chart side). -/
theorem scenario_a_end_to_end :
    parse_output "Matrix size: 4 x 4\nSequential: ... Time: 10.0 ms\n  2   5.0   2.00   100.0%" =
      Except.ok ⟨[4], [10], [(2, [(4, 5)])]⟩ ∧
    alookup2 [(2, [(4, 5)])] 2 4 = some 5 ∧
    tableSpeedup ⟨[4], [10], [(2, [(4, 5)])]⟩ 0 4 2 = some 2 ∧
    chartSpeedup ⟨[4], [10], [(2, [(4, 5)])]⟩ 0 4 2 = some 2 ∧
    chartEfficiency ⟨[4], [10], [(2, [(4, 5)])]⟩ 0 4 2 = some 100 := by
  refine ⟨by decide, by decide, ?_, ?_, ?_⟩
  · norm_num [tableSpeedup, alookup]
  · norm_num [chartSpeedup, alookup]
  · norm_num [chartEfficiency, chartSpeedup, alookup]

/-- C7: for a recorded (non-negative) parallel time: if it is 0 the derived
speedup is exactly 0 on both the table side and the chart side (no division
is performed), and otherwise the speedup is sequentialTime / parallelTime. -/
theorem speedup_zero_policy (d : Dataset) (idx size threads : Nat) (p : ℚ)
    (inner : List (Nat × ℚ))
    (hth : alookup threads d.parallel_results = some inner)
    (hsz : alookup size inner = some p) (hp : 0 ≤ p) :
    (p = 0 → tableSpeedup d idx size threads = some 0 ∧
             chartSpeedup d idx size threads = some 0) ∧
    (p ≠ 0 → ∀ s : ℚ, d.sequential_times.get? idx = some s →
      tableSpeedup d idx size threads = some (s / p) ∧
      chartSpeedup d idx size threads = some (s / p)) := by
  constructor
  · intro hp0
    subst hp0
    constructor
    · simp [tableSpeedup, hth, hsz]
    · simp [chartSpeedup, hth, hsz]
  · intro hne s hs
    rw [List.get?_eq_getElem?] at hs
    have hpos : 0 < p := lt_of_le_of_ne hp (Ne.symm hne)
    constructor
    · simp [tableSpeedup, hth, hsz, hpos, hs]
    · simp [chartSpeedup, hth, hsz, hpos, hs]

/-- C7 (witness): the zero-time branch evaluated on a concrete dataset with
a recorded parallel time of 0. -/
theorem speedup_zero_policy_wit :
    tableSpeedup ⟨[4], [10], [(2, [(4, 0)])]⟩ 0 4 2 = some 0 ∧
    chartSpeedup ⟨[4], [10], [(2, [(4, 0)])]⟩ 0 4 2 = some 0 :=
  (speedup_zero_policy ⟨[4], [10], [(2, [(4, 0)])]⟩ 0 4 2 0 [(4, 0)]
    (by decide) (by decide) (by decide)).1 rfl

/-- C8 (counterexample): an input with no recognizable size header can
nevertheless crash the parser (uncaught ValueError from `float('.')`), in
which case no diagnostic echoing the raw input is produced. -/
theorem no_header_crash_cex :
    pipeline "Sequential:\nTime: . ms" = PipeResult.parseError "ValueError" ∧
    (∀ l ∈ splitLines "Sequential:\nTime: . ms", sizeHeaderOf l = none) ∧
    pipeline "Sequential:\nTime: . ms" ≠
      PipeResult.emptyOutput "Sequential:\nTime: . ms" := by
  decide

/-- C8 (amended): for every input in which no line has a size-header match,
the pipeline either reports the empty-output diagnostic echoing the raw
input, or aborts with the uncaught parse ValueError; in both cases it stops
before the summary table and the charts (no `report` outcome). -/
theorem no_header_abort (out : String)
    (h : ∀ l ∈ splitLines out, sizeHeaderOf l = none) :
    pipeline out = PipeResult.emptyOutput out ∨
    ∃ e, pipeline out = PipeResult.parseError e := by
  unfold pipeline parse_output
  cases hp : parseLines (splitLines out) with
  | error e => exact Or.inr ⟨e, rfl⟩
  | ok d =>
    left
    have hsz : d.sizes = [] := by
      rw [(parseLines_proj hp).1]
      exact szRun_noheader h []
    simp [hsz]

/-- C8 (witness): the diagnostic-and-abort branch on a header-free input
that parses successfully. -/
theorem no_header_abort_wit :
    pipeline "hello" = PipeResult.emptyOutput "hello" ∨
    ∃ e, pipeline "hello" = PipeResult.parseError e :=
  no_header_abort "hello" (by decide)

/-- C9: parallel rows on lines before any size-header line are discarded:
the `parallel_results` of a successful parse of a header-free prefix
followed by the remainder equal the projection of the remainder alone. -/
theorem rows_before_header_discarded (ls₁ ls₂ : List String) (d : Dataset)
    (h : ∀ l ∈ ls₁, sizeHeaderOf l = none)
    (hp : parseLines (ls₁ ++ ls₂) = Except.ok d) :
    d.parallel_results = prRun ls₂ none [] := by
  rw [(parseLines_proj hp).2.2]
  exact prRun_append_noheader h ls₂ []

/-- C9 (witness): a ParallelRow line preceding the only size header
contributes nothing to `parallel_results`. -/
theorem rows_before_header_discarded_wit :
    (⟨[4], [], []⟩ : Dataset).parallel_results =
      prRun ["Matrix size: 4 x 4"] none [] :=
  rows_before_header_discarded ["  2   5.0   2.00   100.0%"]
    ["Matrix size: 4 x 4"] ⟨[4], [], []⟩ (by decide) (by decide)

/-- C10: for every successfully parsed input, `sizes` is exactly the
first-seen deduplication of the size-header values in line order, and it
has no duplicates. -/
theorem sizes_nodup_first_seen (ls : List String) (d : Dataset)
    (h : parseLines ls = Except.ok d) :
    d.sizes = dedupFirst (headerVals ls) [] ∧ d.sizes.Nodup := by
  have h1 := (parseLines_proj h).1
  constructor
  · rw [h1, szRun_eq_dedupFirst]
  · rw [h1]
    exact szRun_nodup ls [] List.nodup_nil

/-- C10 (witness): re-seeing size 4 re-selects it without duplicating it. -/
theorem sizes_nodup_first_seen_wit :
    (⟨[4, 8], [], []⟩ : Dataset).sizes =
      dedupFirst (headerVals ["Matrix size: 4 x 4", "Matrix size: 8 x 8",
        "Matrix size: 4 x 4"]) [] ∧
    (⟨[4, 8], [], []⟩ : Dataset).sizes.Nodup :=
  sizes_nodup_first_seen ["Matrix size: 4 x 4", "Matrix size: 8 x 8",
      "Matrix size: 4 x 4"] ⟨[4, 8], [], []⟩ (by decide)
